import Mathlib

/-!
Shallow embedding of `grey_lit_search/utils.py` and proofs about its
retrieval pipeline: the summary logger (`results_summary`), the retrieval
dispatcher (`save_pdf` and its three failure-marker writers), the link
recorder (`save_link`), the query construction of `get_webpage`, and the
per-result loop of `search_and_download`.

The filesystem is modelled as an event log of file writes (newest first)
plus a set of created directories.  Opening a path for writing fails when
the path ends in a separator or names an existing directory (the POSIX
`IsADirectoryError` behaviour that the dispatcher's generic handler
catches); this is what happens when a link's final path segment is empty.
-/

namespace GreyLitSearch

/-- `posixpath.basename`: the part of `p` after the last `'/'`. -/
def basename (p : String) : String :=
  ⟨(p.data.reverse.takeWhile (fun c => c != '/')).reverse⟩

/-- `posixpath.dirname`: everything before the last `'/'`; trailing
separators are stripped unless the head consists only of separators. -/
def dirname (p : String) : String :=
  let h := (p.data.reverse.dropWhile (fun c => c != '/')).reverse
  if h.all (fun c => c == '/') then ⟨h⟩
  else ⟨(h.reverse.dropWhile (fun c => c == '/')).reverse⟩

/-- `posixpath.join a b` for two components. -/
def joinPath (a b : String) : String :=
  if b.data.head? = some '/' then b
  else if a.data = [] ∨ a.data.getLast? = some '/' then ⟨a.data ++ b.data⟩
  else ⟨a.data ++ '/' :: b.data⟩

/-- Python `str(search_num).zfill(3)`: the decimal representation
left-padded with `'0'` to a minimum width of 3. -/
def zfill3 (n : Nat) : String :=
  ⟨List.replicate (3 - (Nat.repr n).length) '0' ++ (Nat.repr n).data⟩

/-- A path ends with the path separator. -/
def endsWithSep (p : String) : Bool :=
  p.data.getLast? == some '/'

/-- Filesystem state: a log of file writes (most recent first) and the
set of directories that exist. -/
structure FS where
  files : List (String × String)
  dirs : List String
deriving DecidableEq

/-- `os.makedirs(p, exist_ok=True)`: create the directory if absent. -/
def FS.makedirs (fs : FS) (p : String) : FS :=
  if fs.dirs.contains p then fs else { fs with dirs := p :: fs.dirs }

/-- Current content of the file at `p`, if any. -/
def FS.read (fs : FS) (p : String) : Option String :=
  (fs.files.find? (fun e => e.1 == p)).map (fun e => e.2)

/-- `os.path.isfile`. -/
def FS.isfile (fs : FS) (p : String) : Bool :=
  (fs.files.find? (fun e => e.1 == p)).isSome

/-- `open(p, "w"/"wb")` followed by a full write: fails (like
`IsADirectoryError`) when `p` ends in a separator or is a directory;
otherwise records one write event holding the complete content. -/
def FS.writeFile (fs : FS) (p content : String) : Except Unit FS :=
  if endsWithSep p || fs.dirs.contains p then .error ()
  else .ok { fs with files := (p, content) :: fs.files }

/-- `open(p, "a")` followed by a write: appends to the current content
(creating the file when absent), with the same failure condition. -/
def FS.appendFile (fs : FS) (p line : String) : Except Unit FS :=
  if endsWithSep p || fs.dirs.contains p then .error ()
  else .ok { fs with files := (p, ((fs.read p).getD "") ++ line) :: fs.files }

/-- The summary file path `os.path.join(base_dir, "results_summary.csv")`. -/
def summary_path (base_dir : String) : String :=
  joinPath base_dir "results_summary.csv"

/-- The header row written on first use of the summary file. -/
def summaryHeader : String := "search number, title, link\n"

/-- The row appended per result:
`f"{str(search_num).zfill(3)}, {title}, {link}\n"`. -/
def summaryRow (search_num : Nat) (title link : String) : String :=
  zfill3 search_num ++ ", " ++ title ++ ", " ++ link ++ "\n"

/-- `results_summary` from `utils.py`. -/
def results_summary (fs : FS) (search_num : Nat) (title link base_dir : String) :
    Except Unit FS :=
  let fs1 := fs.makedirs base_dir
  let summary_file := summary_path base_dir
  match (if fs1.isfile summary_file then Except.ok fs1
         else fs1.writeFile summary_file summaryHeader) with
  | .error e => .error e
  | .ok fs2 => fs2.appendFile summary_file (summaryRow search_num title link)

/-- The per-result subdirectory used by `save_pdf` (line 67). -/
def save_pdf_save_dir (base_dir : String) (search_num : Nat) : String :=
  joinPath base_dir (zfill3 search_num)

/-- The per-result subdirectory used by `save_link` (line 142). -/
def save_link_save_dir (base_dir : String) (search_num : Nat) : String :=
  joinPath base_dir (zfill3 search_num)

/-- The download target `os.path.join(save_dir, os.path.basename(link))`. -/
def save_pdf_fname (base_dir : String) (search_num : Nat) (link : String) : String :=
  joinPath (save_pdf_save_dir base_dir search_num) (basename link)

/-- Message of a `.404error.txt` marker. -/
def msg404 (link : String) : String :=
  "recieved 404 error when trying to download\n" ++ link

/-- Message of a `.timedout.txt` marker. -/
def msgTimeout (link : String) : String :=
  "timed out when trying to download," ++
    " please manually download using the link below\n" ++ link

/-- Message of a `.failed.txt` marker. -/
def msgGeneric (link : String) : String :=
  "recieved an error when trying to download\n" ++ link

/-- `write_fail_msg` from `utils.py`. -/
def write_fail_msg (fs : FS) (fname link : String) : Except Unit FS :=
  (fs.makedirs (dirname fname)).writeFile (fname ++ ".404error.txt") (msg404 link)

/-- `write_timeout_msg` from `utils.py`. -/
def write_timeout_msg (fs : FS) (fname link : String) : Except Unit FS :=
  (fs.makedirs (dirname fname)).writeFile (fname ++ ".timedout.txt") (msgTimeout link)

/-- `write_generic_fail_msg` from `utils.py`. -/
def write_generic_fail_msg (fs : FS) (fname link : String) : Except Unit FS :=
  (fs.makedirs (dirname fname)).writeFile (fname ++ ".failed.txt") (msgGeneric link)

/-- Outcome of `requests.get` on a link: a response with a status code and
body, a `requests.exceptions.Timeout`, or any other transport error. -/
inductive ReqResult where
  | ok (status : Nat) (body : String)
  | timeout
  | connError
deriving DecidableEq

/-- `Response.raise_for_status` raises `HTTPError` exactly for
4xx and 5xx status codes. -/
def raisesForStatus (status : Nat) : Bool :=
  400 ≤ status && status < 600

/-- The `timeout=` argument `save_pdf` passes to `requests.get`
(line 73 of `utils.py`): the literal `60`, not the `timeout` parameter. -/
def save_pdf_requests_timeout (timeout : Nat) : Nat := 60

/-- The default of `save_pdf`'s `timeout` parameter (line 61). -/
def save_pdf_default_timeout : Nat := 60

/-- `save_pdf` from `utils.py`, with the network interaction abstracted
into the `resp : ReqResult` argument.  The three `except` clauses are
checked in source order: `HTTPError`, then `Timeout`, then `Exception`
(which also catches the failure to open `fname` for writing). -/
def save_pdf (fs : FS) (search_num : Nat) (link base_dir : String)
    (timeout : Nat) (resp : ReqResult) : Except Unit FS :=
  let save_dir := save_pdf_save_dir base_dir search_num
  let fs1 := fs.makedirs save_dir
  let fname := save_pdf_fname base_dir search_num link
  match resp with
  | .ok status body =>
    if raisesForStatus status then write_fail_msg fs1 fname link
    else
      match fs1.writeFile fname body with
      | .ok fs2 => .ok fs2
      | .error _ => write_generic_fail_msg fs1 fname link
  | .timeout => write_timeout_msg fs1 fname link
  | .connError => write_generic_fail_msg fs1 fname link

/-- `save_link` from `utils.py`. -/
def save_link (fs : FS) (search_num : Nat) (link base_dir : String) :
    Except Unit FS :=
  let save_dir := save_link_save_dir base_dir search_num
  let fs1 := fs.makedirs save_dir
  let fname := joinPath save_dir "website_link.txt"
  fs1.writeFile fname link

/-- The query-construction and warning behaviour of `get_webpage`:
returns the URL actually requested and whether the `SearchWarning`
about more than 100 results was emitted. -/
def get_webpage_query (url : String) (results : Int) : String × Bool :=
  if results > 100 then (url ++ "&num=" ++ toString (100 : Int), true)
  else (url ++ "&num=" ++ toString results, false)

/-- A parsed search result as produced by `get_search_results`. -/
structure SearchResult where
  title : String
  primary_link : String
  do_download : Bool
deriving DecidableEq

/-- The body of the `for` loop of `search_and_download` for one result:
the summary row is written first, then the download / link recording
is dispatched.  `search_and_download` passes no timeout, so `save_pdf`
runs with its default of 60. -/
def processOne (base_dir : String) (indx : Nat) (r : SearchResult)
    (resp : ReqResult) (fs : FS) : Except Unit FS :=
  match results_summary fs indx r.title r.primary_link base_dir with
  | .error e => .error e
  | .ok fs1 =>
    if r.do_download then save_pdf fs1 indx r.primary_link base_dir 60 resp
    else save_link fs1 indx r.primary_link base_dir

/-- The `for indx, search in enumerate(...)` loop of `search_and_download`,
started at index `indx`, with the network outcome of each result supplied
alongside it. -/
def runResults (base_dir : String) : Nat → List (SearchResult × ReqResult) → FS →
    Except Unit FS
  | _, [], fs => .ok fs
  | indx, (r, resp) :: rest, fs =>
    match processOne base_dir indx r resp fs with
    | .error e => .error e
    | .ok fs1 => runResults base_dir (indx + 1) rest fs1

/-! ### Generic list and option helpers -/

lemma mem_of_head? {α : Type} {l : List α} {a : α} (h : l.head? = some a) : a ∈ l := by
  cases l with
  | nil => simp at h
  | cons x xs =>
    simp only [List.head?_cons, Option.some.injEq] at h
    exact h ▸ List.mem_cons_self x xs

lemma mem_of_getLast? {α : Type} {l : List α} {a : α} (h : l.getLast? = some a) : a ∈ l := by
  have h' : l.reverse.head? = some a := by rw [List.head?_reverse]; exact h
  exact List.mem_reverse.1 (mem_of_head? h')

lemma getLast?_append_right {α : Type} (a b : List α) (hb : b ≠ []) :
    (a ++ b).getLast? = b.getLast? := by
  obtain ⟨x, hx⟩ := Option.isSome_iff_exists.1 (List.getLast?_isSome.2 hb)
  rw [List.getLast?_append, hx]
  rfl

lemma ne_nil_of_getLast? {α : Type} {l : List α} {a : α} (h : l.getLast? = some a) :
    l ≠ [] := by
  intro hl
  rw [hl] at h
  simp at h

lemma contains_iff_mem (l : List String) (p : String) : l.contains p = true ↔ p ∈ l := by
  induction l with
  | nil => simp
  | cons x xs ih => simp [List.contains_cons, ih, beq_iff_eq]

lemma dropWhile_of_head?_false {α : Type} {p : α → Bool} {l : List α} {a : α}
    (h : l.head? = some a) (hp : p a = false) : l.dropWhile p = l := by
  cases l with
  | nil => rfl
  | cons x xs =>
    simp only [List.head?_cons, Option.some.injEq] at h
    subst h
    simp [List.dropWhile_cons, hp]

/-! ### Decimal digits of `Nat.repr` -/

lemma digitChar_isDigit (n : Nat) (h : n < 10) : (Nat.digitChar n).isDigit = true := by
  interval_cases n <;> decide

lemma isDigit_ne_special {c : Char} (h : c.isDigit = true) :
    c ≠ '/' ∧ c ≠ 't' ∧ c ≠ 'v' := by
  refine ⟨?_, ?_, ?_⟩ <;> rintro rfl <;> exact absurd h (by decide)

lemma toDigitsCore_digits (f : Nat) :
    ∀ (n : Nat) (acc : List Char), (∀ c ∈ acc, c.isDigit = true) →
      ∀ c ∈ Nat.toDigitsCore 10 f n acc, c.isDigit = true := by
  induction f with
  | zero =>
    intro n acc hacc c hc
    simpa only [Nat.toDigitsCore] using hacc c hc
  | succ f ih =>
    intro n acc hacc c hc
    simp only [Nat.toDigitsCore] at hc
    have hdig : (Nat.digitChar (n % 10)).isDigit = true :=
      digitChar_isDigit _ (Nat.mod_lt _ (by norm_num))
    by_cases h10 : n / 10 = 0
    · rw [if_pos h10] at hc
      rcases List.mem_cons.1 hc with rfl | hmem
      · exact hdig
      · exact hacc c hmem
    · rw [if_neg h10] at hc
      refine ih (n / 10) _ ?_ c hc
      intro d hd
      rcases List.mem_cons.1 hd with rfl | hmem
      · exact hdig
      · exact hacc d hmem

lemma repr_data_eq (n : Nat) : (Nat.repr n).data = Nat.toDigitsCore 10 (n + 1) n [] := rfl

lemma repr_digits (n : Nat) : ∀ c ∈ (Nat.repr n).data, c.isDigit = true := by
  intro c hc
  rw [repr_data_eq] at hc
  exact toDigitsCore_digits (n + 1) n [] (by simp) c hc

lemma toDigitsCore_len_le (f : Nat) :
    ∀ (n : Nat) (acc : List Char), acc.length ≤ (Nat.toDigitsCore 10 f n acc).length := by
  induction f with
  | zero => intro n acc; simp [Nat.toDigitsCore]
  | succ f ih =>
    intro n acc
    simp only [Nat.toDigitsCore]
    by_cases h10 : n / 10 = 0
    · rw [if_pos h10]; simp
    · rw [if_neg h10]
      have := ih (n / 10) (Nat.digitChar (n % 10) :: acc)
      simp only [List.length_cons] at this
      omega

lemma toDigitsCore_len_lt (f n : Nat) (acc : List Char) :
    acc.length < (Nat.toDigitsCore 10 (f + 1) n acc).length := by
  simp only [Nat.toDigitsCore]
  by_cases h10 : n / 10 = 0
  · rw [if_pos h10]; simp
  · rw [if_neg h10]
    have := toDigitsCore_len_le f (n / 10) (Nat.digitChar (n % 10) :: acc)
    simp only [List.length_cons] at this
    omega

lemma toDigitsCore_len_pow (k : Nat) :
    ∀ (f n : Nat) (acc : List Char), 10 ^ k ≤ n → n < f →
      acc.length + (k + 1) ≤ (Nat.toDigitsCore 10 f n acc).length := by
  induction k with
  | zero =>
    intro f n acc h1 h2
    match f, h2 with
    | f + 1, _ =>
      have := toDigitsCore_len_lt f n acc
      omega
  | succ k ih =>
    intro f n acc h1 h2
    have h10 : (10 : Nat) ≤ 10 ^ (k + 1) := by
      calc (10 : Nat) = 10 ^ 1 := (pow_one 10).symm
      _ ≤ 10 ^ (k + 1) := Nat.pow_le_pow_right (by norm_num) (by omega)
    match f, h2 with
    | f + 1, h2 =>
      simp only [Nat.toDigitsCore]
      have hne : ¬ (n / 10 = 0) := by
        have : 1 ≤ n / 10 := (Nat.one_le_div_iff (by norm_num)).2 (by omega)
        omega
      rw [if_neg hne]
      have h1' : 10 ^ k ≤ n / 10 := by
        rw [Nat.le_div_iff_mul_le (by norm_num)]
        calc 10 ^ k * 10 = 10 ^ (k + 1) := (pow_succ 10 k).symm
        _ ≤ n := h1
      have h2' : n / 10 < f := by
        have hlt : n / 10 < n := Nat.div_lt_self (by omega) (by norm_num)
        omega
      have := ih f (n / 10) (Nat.digitChar (n % 10) :: acc) h1' h2'
      simp only [List.length_cons] at this
      omega

lemma repr_ne_nil (n : Nat) : (Nat.repr n).data ≠ [] := by
  intro h
  have := toDigitsCore_len_lt n n []
  rw [← repr_data_eq, h] at this
  simp at this

lemma repr_len_ge4 {n : Nat} (h : 1000 ≤ n) : 4 ≤ (Nat.repr n).length := by
  have h3 : (10 : Nat) ^ 3 ≤ n := by norm_num; omega
  have := toDigitsCore_len_pow 3 (n + 1) n [] h3 (Nat.lt_succ_self n)
  have hlen : (Nat.repr n).length = (Nat.toDigitsCore 10 (n + 1) n []).length := by
    show (Nat.repr n).data.length = _
    rw [repr_data_eq]
  omega

/-! ### `zfill3` facts -/

lemma zfill3_data (n : Nat) :
    (zfill3 n).data = List.replicate (3 - (Nat.repr n).length) '0' ++ (Nat.repr n).data := rfl

lemma zfill3_digits (n : Nat) : ∀ c ∈ (zfill3 n).data, c.isDigit = true := by
  intro c hc
  rw [zfill3_data] at hc
  rcases List.mem_append.1 hc with h | h
  · rcases List.mem_replicate.1 h with ⟨-, rfl⟩
    decide
  · exact repr_digits n c h

lemma zfill3_ne_nil (n : Nat) : (zfill3 n).data ≠ [] := by
  rw [zfill3_data]
  simp [repr_ne_nil n]

lemma zfill3_getLast (n : Nat) :
    ∃ c, (zfill3 n).data.getLast? = some c ∧ c.isDigit = true := by
  obtain ⟨c, hc⟩ := Option.isSome_iff_exists.1 (List.getLast?_isSome.2 (zfill3_ne_nil n))
  exact ⟨c, hc, zfill3_digits n c (mem_of_getLast? hc)⟩

lemma zfill3_length (n : Nat) : (zfill3 n).length = max 3 (Nat.repr n).length := by
  have h1 : (zfill3 n).length = (3 - (Nat.repr n).length) + (Nat.repr n).length := by
    show (zfill3 n).data.length = _
    rw [zfill3_data, List.length_append, List.length_replicate]
    rfl
  omega

lemma zfill3_of_ge_1000 {n : Nat} (h : 1000 ≤ n) : zfill3 n = Nat.repr n := by
  apply String.ext
  rw [zfill3_data]
  have := repr_len_ge4 h
  have h0 : 3 - (Nat.repr n).length = 0 := by omega
  rw [h0]
  simp

/-! ### Path lemmas -/

lemma basename_no_slash (p : String) : ∀ c ∈ (basename p).data, c ≠ '/' := by
  intro c hc
  have h1 : c ∈ p.data.reverse.takeWhile (fun c => c != '/') :=
    List.mem_reverse.1 hc
  have := List.mem_takeWhile_imp h1
  simpa using this

lemma head?_ne_slash {b : List Char} (h : ∀ c ∈ b, c ≠ '/') : b.head? ≠ some '/' := by
  intro hb
  exact h '/' (mem_of_head? hb) rfl

lemma joinPath_data_of (a b : String) (ha : a.data ≠ []) (ha2 : a.data.getLast? ≠ some '/')
    (hb : b.data.head? ≠ some '/') :
    (joinPath a b).data = a.data ++ '/' :: b.data := by
  unfold joinPath
  rw [if_neg hb, if_neg (by push_neg; exact ⟨ha, ha2⟩)]

lemma joinPath_getLast (a b : String) (hb : b.data ≠ []) (hb2 : b.data.head? ≠ some '/') :
    (joinPath a b).data.getLast? = b.data.getLast? := by
  unfold joinPath
  rw [if_neg hb2]
  by_cases h : a.data = [] ∨ a.data.getLast? = some '/'
  · rw [if_pos h]
    exact getLast?_append_right _ _ hb
  · rw [if_neg h]
    show (a.data ++ '/' :: b.data).getLast? = _
    rw [getLast?_append_right _ _ (by simp)]
    show (['/'] ++ b.data).getLast? = _
    exact getLast?_append_right _ _ hb

lemma dirname_joinPath (a b : String) (ha : a.data ≠ []) (ha2 : a.data.getLast? ≠ some '/')
    (hb : ∀ c ∈ b.data, c ≠ '/') :
    dirname (joinPath a b) = a := by
  have hb2 : b.data.head? ≠ some '/' := head?_ne_slash hb
  have hd : (joinPath a b).data = a.data ++ '/' :: b.data := joinPath_data_of a b ha ha2 hb2
  obtain ⟨lc, hlc⟩ := Option.isSome_iff_exists.1 (List.getLast?_isSome.2 ha)
  have hlc' : lc ≠ '/' := fun h => ha2 (h ▸ hlc)
  have hrevhead : a.data.reverse.head? = some lc := by rw [List.head?_reverse]; exact hlc
  have hrev : (joinPath a b).data.reverse = b.data.reverse ++ '/' :: a.data.reverse := by
    rw [hd, List.reverse_append, List.reverse_cons, List.append_assoc]
    rfl
  have hdropb : b.data.reverse.dropWhile (fun c => c != '/') = [] := by
    rw [List.dropWhile_eq_nil_iff]
    intro x hx
    simpa using hb x (List.mem_reverse.1 hx)
  have hdrop : (joinPath a b).data.reverse.dropWhile (fun c => c != '/') =
      '/' :: a.data.reverse := by
    rw [hrev, List.dropWhile_append, hdropb]
    simp [List.dropWhile_cons]
  unfold dirname
  rw [hdrop]
  have hall : ¬ (('/' :: a.data.reverse).reverse.all (fun c => c == '/') = true) := by
    rw [List.all_eq_true]
    push_neg
    refine ⟨lc, ?_, by simp [hlc']⟩
    rw [List.mem_reverse]
    exact List.mem_cons_of_mem _ (mem_of_head? hrevhead)
  rw [if_neg hall]
  rw [List.reverse_reverse]
  rw [List.dropWhile_cons]
  simp only [show (('/' : Char) == '/') = true from rfl, if_true]
  rw [dropWhile_of_head?_false hrevhead (by simp [hlc'])]
  rw [List.reverse_reverse]

/-! ### Filesystem lemmas -/

lemma makedirs_files (fs : FS) (p : String) : (fs.makedirs p).files = fs.files := by
  unfold FS.makedirs
  split <;> rfl

lemma makedirs_mem_dirs (fs : FS) (p q : String) :
    q ∈ (fs.makedirs p).dirs ↔ q = p ∨ q ∈ fs.dirs := by
  unfold FS.makedirs
  split
  · rename_i h
    rw [contains_iff_mem] at h
    constructor
    · exact Or.inr
    · rintro (rfl | hq)
      · exact h
      · exact hq
  · simp [List.mem_cons]

lemma makedirs_contains (fs : FS) (p : String) :
    (fs.makedirs p).dirs.contains p = true := by
  rw [contains_iff_mem, makedirs_mem_dirs]
  exact Or.inl rfl

lemma makedirs_idem (fs : FS) (p : String) :
    (fs.makedirs p).makedirs p = fs.makedirs p := by
  have h := makedirs_contains fs p
  unfold FS.makedirs at h ⊢
  rw [if_pos h]

lemma writeFile_ok (fs : FS) (p content : String) (h1 : p.data.getLast? ≠ some '/')
    (h2 : p ∉ fs.dirs) :
    fs.writeFile p content = .ok { fs with files := (p, content) :: fs.files } := by
  unfold FS.writeFile endsWithSep
  rw [if_neg]
  rw [Bool.or_eq_true, not_or]
  constructor
  · simpa using h1
  · rw [Bool.not_eq_true]
    rw [Bool.eq_false_iff]
    intro hc
    exact h2 ((contains_iff_mem _ _).1 hc)

lemma appendFile_ok (fs : FS) (p line : String) (h1 : p.data.getLast? ≠ some '/')
    (h2 : p ∉ fs.dirs) :
    fs.appendFile p line =
      .ok { fs with files := (p, ((fs.read p).getD "") ++ line) :: fs.files } := by
  unfold FS.appendFile endsWithSep
  rw [if_neg]
  rw [Bool.or_eq_true, not_or]
  constructor
  · simpa using h1
  · rw [Bool.not_eq_true, Bool.eq_false_iff]
    intro hc
    exact h2 ((contains_iff_mem _ _).1 hc)

/-- A directory name that can never collide with a path ending in `t`
(the marker files, `website_link.txt`) or `v` (`results_summary.csv`). -/
def cleanDirName (d : String) : Prop :=
  ∀ c, d.data.getLast? = some c → c ≠ 't' ∧ c ≠ 'v'

/-- All directories of the filesystem have clean names. -/
def FS.dirsClean (fs : FS) : Prop :=
  ∀ d ∈ fs.dirs, cleanDirName d

lemma dirsClean_makedirs {fs : FS} {p : String} (h : fs.dirsClean) (hp : cleanDirName p) :
    (fs.makedirs p).dirsClean := by
  intro d hd
  rcases (makedirs_mem_dirs fs p d).1 hd with rfl | hd'
  · exact hp
  · exact h d hd'

lemma not_mem_dirs_of_clean {fs : FS} {p : String} {c : Char} (h : fs.dirsClean)
    (hp : p.data.getLast? = some c) (hc : c = 't' ∨ c = 'v') : p ∉ fs.dirs := by
  intro hm
  rcases hc with rfl | rfl
  · exact (h p hm _ hp).1 rfl
  · exact (h p hm _ hp).2 rfl

lemma writeFile_clean {fs : FS} (h : fs.dirsClean) (p m : String) {c : Char}
    (hlast : p.data.getLast? = some c) (hc : c = 't' ∨ c = 'v') :
    fs.writeFile p m = .ok ⟨(p, m) :: fs.files, fs.dirs⟩ :=
  writeFile_ok fs p m
    (by rw [hlast]; rcases hc with rfl | rfl <;> simp)
    (not_mem_dirs_of_clean h hlast hc)

lemma appendFile_clean {fs : FS} (h : fs.dirsClean) (p line : String) {c : Char}
    (hlast : p.data.getLast? = some c) (hc : c = 't' ∨ c = 'v') :
    fs.appendFile p line = .ok ⟨(p, ((fs.read p).getD "") ++ line) :: fs.files, fs.dirs⟩ :=
  appendFile_ok fs p line
    (by rw [hlast]; rcases hc with rfl | rfl <;> simp)
    (not_mem_dirs_of_clean h hlast hc)

lemma append_data_getLast (x s : String) (hs : s.data ≠ []) :
    (x ++ s).data.getLast? = s.data.getLast? := by
  rw [String.data_append]
  exact getLast?_append_right _ _ hs

/-! ### Facts about the paths `save_pdf` and `save_link` build -/

lemma save_dir_getLast (base : String) (n : Nat) :
    ∃ c, (save_pdf_save_dir base n).data.getLast? = some c ∧ c.isDigit = true := by
  obtain ⟨c, hc, hd⟩ := zfill3_getLast n
  refine ⟨c, ?_, hd⟩
  unfold save_pdf_save_dir
  rw [joinPath_getLast base (zfill3 n) (zfill3_ne_nil n) ?_]
  · exact hc
  · intro h
    exact (isDigit_ne_special (zfill3_digits n '/' (mem_of_head? h))).1 rfl

lemma save_dir_ne_nil (base : String) (n : Nat) : (save_pdf_save_dir base n).data ≠ [] := by
  obtain ⟨c, hc, -⟩ := save_dir_getLast base n
  exact ne_nil_of_getLast? hc

lemma save_dir_getLast_ne_slash (base : String) (n : Nat) :
    (save_pdf_save_dir base n).data.getLast? ≠ some '/' := by
  obtain ⟨c, hc, hd⟩ := save_dir_getLast base n
  rw [hc]
  intro h
  exact (isDigit_ne_special hd).1 (by injection h)

lemma save_dir_clean (base : String) (n : Nat) : cleanDirName (save_pdf_save_dir base n) := by
  intro c hc
  obtain ⟨c', hc', hd⟩ := save_dir_getLast base n
  rw [hc'] at hc
  obtain rfl : c' = c := by injection hc
  exact ⟨(isDigit_ne_special hd).2.1, (isDigit_ne_special hd).2.2⟩

lemma dirname_save_pdf_fname (base : String) (n : Nat) (link : String) :
    dirname (save_pdf_fname base n link) = save_pdf_save_dir base n := by
  unfold save_pdf_fname
  exact dirname_joinPath _ _ (save_dir_ne_nil base n) (save_dir_getLast_ne_slash base n)
    (basename_no_slash link)

lemma marker_getLast (x : String) (s : String) (hs : s.data ≠ [])
    (ht : s.data.getLast? = some 't') : (x ++ s).data.getLast? = some 't' := by
  rw [append_data_getLast x s hs]
  exact ht

/-! ### Equations for the three marker writers inside `save_pdf` -/

lemma write_fail_msg_eq {fs : FS} (h : fs.dirsClean) (base : String) (n : Nat) (link : String) :
    write_fail_msg fs (save_pdf_fname base n link) link =
      .ok ⟨(save_pdf_fname base n link ++ ".404error.txt", msg404 link) :: fs.files,
        (fs.makedirs (save_pdf_save_dir base n)).dirs⟩ := by
  unfold write_fail_msg
  rw [dirname_save_pdf_fname]
  have hclean : (fs.makedirs (save_pdf_save_dir base n)).dirsClean :=
    dirsClean_makedirs h (save_dir_clean base n)
  rw [writeFile_clean hclean _ _ (marker_getLast _ _ (by decide) (by decide)) (Or.inl rfl)]
  rw [makedirs_files]

lemma write_timeout_msg_eq {fs : FS} (h : fs.dirsClean) (base : String) (n : Nat)
    (link : String) :
    write_timeout_msg fs (save_pdf_fname base n link) link =
      .ok ⟨(save_pdf_fname base n link ++ ".timedout.txt", msgTimeout link) :: fs.files,
        (fs.makedirs (save_pdf_save_dir base n)).dirs⟩ := by
  unfold write_timeout_msg
  rw [dirname_save_pdf_fname]
  have hclean : (fs.makedirs (save_pdf_save_dir base n)).dirsClean :=
    dirsClean_makedirs h (save_dir_clean base n)
  rw [writeFile_clean hclean _ _ (marker_getLast _ _ (by decide) (by decide)) (Or.inl rfl)]
  rw [makedirs_files]

lemma write_generic_fail_msg_eq {fs : FS} (h : fs.dirsClean) (base : String) (n : Nat)
    (link : String) :
    write_generic_fail_msg fs (save_pdf_fname base n link) link =
      .ok ⟨(save_pdf_fname base n link ++ ".failed.txt", msgGeneric link) :: fs.files,
        (fs.makedirs (save_pdf_save_dir base n)).dirs⟩ := by
  unfold write_generic_fail_msg
  rw [dirname_save_pdf_fname]
  have hclean : (fs.makedirs (save_pdf_save_dir base n)).dirsClean :=
    dirsClean_makedirs h (save_dir_clean base n)
  rw [writeFile_clean hclean _ _ (marker_getLast _ _ (by decide) (by decide)) (Or.inl rfl)]
  rw [makedirs_files]

/-! ### Branch equations for `save_pdf` -/

lemma save_pdf_timeout_eq {fs : FS} (h : fs.dirsClean) (n : Nat) (link base : String)
    (t : Nat) :
    save_pdf fs n link base t .timeout =
      .ok ⟨(save_pdf_fname base n link ++ ".timedout.txt", msgTimeout link) :: fs.files,
        (fs.makedirs (save_pdf_save_dir base n)).dirs⟩ := by
  show write_timeout_msg (fs.makedirs (save_pdf_save_dir base n))
    (save_pdf_fname base n link) link = _
  rw [write_timeout_msg_eq (dirsClean_makedirs h (save_dir_clean base n)) base n link]
  rw [makedirs_files, makedirs_idem]

lemma save_pdf_conn_eq {fs : FS} (h : fs.dirsClean) (n : Nat) (link base : String)
    (t : Nat) :
    save_pdf fs n link base t .connError =
      .ok ⟨(save_pdf_fname base n link ++ ".failed.txt", msgGeneric link) :: fs.files,
        (fs.makedirs (save_pdf_save_dir base n)).dirs⟩ := by
  show write_generic_fail_msg (fs.makedirs (save_pdf_save_dir base n))
    (save_pdf_fname base n link) link = _
  rw [write_generic_fail_msg_eq (dirsClean_makedirs h (save_dir_clean base n)) base n link]
  rw [makedirs_files, makedirs_idem]

lemma save_pdf_http_eq {fs : FS} (h : fs.dirsClean) (n : Nat) (link base : String)
    (t : Nat) {s : Nat} (body : String) (h4 : 400 ≤ s) (h6 : s < 600) :
    save_pdf fs n link base t (.ok s body) =
      .ok ⟨(save_pdf_fname base n link ++ ".404error.txt", msg404 link) :: fs.files,
        (fs.makedirs (save_pdf_save_dir base n)).dirs⟩ := by
  have hr : raisesForStatus s = true := by
    unfold raisesForStatus
    simp only [Bool.and_eq_true, decide_eq_true_eq]
    omega
  show (if raisesForStatus s = true then _ else _) = _
  rw [if_pos hr]
  rw [write_fail_msg_eq (dirsClean_makedirs h (save_dir_clean base n)) base n link]
  rw [makedirs_files, makedirs_idem]

lemma writeFile_err_of_slash {fs : FS} {p : String} (h : p.data.getLast? = some '/')
    (content : String) : fs.writeFile p content = .error () := by
  unfold FS.writeFile endsWithSep
  rw [if_pos]
  rw [Bool.or_eq_true]
  left
  simp [h]

lemma save_pdf_fname_data (base : String) (n : Nat) (link : String) :
    (save_pdf_fname base n link).data =
      (save_pdf_save_dir base n).data ++ '/' :: (basename link).data :=
  joinPath_data_of _ _ (save_dir_ne_nil base n) (save_dir_getLast_ne_slash base n)
    (head?_ne_slash (basename_no_slash link))

lemma save_pdf_fname_ne_save_dir (base : String) (n : Nat) (link : String) :
    save_pdf_fname base n link ≠ save_pdf_save_dir base n := by
  intro he
  have hd := congrArg String.data he
  rw [save_pdf_fname_data] at hd
  have hlen := congrArg List.length hd
  rw [List.length_append, List.length_cons] at hlen
  omega

lemma save_pdf_success_eq {fs : FS} (h : fs.dirsClean) (n : Nat) (link base : String)
    (t : Nat) {s : Nat} (body : String) (hbn : (basename link).data ≠ [])
    (hnd : save_pdf_fname base n link ∉ fs.dirs) (hs : raisesForStatus s = false) :
    save_pdf fs n link base t (.ok s body) =
      .ok ⟨(save_pdf_fname base n link, body) :: fs.files,
        (fs.makedirs (save_pdf_save_dir base n)).dirs⟩ := by
  show (if raisesForStatus s = true then _ else _) = _
  rw [if_neg (by simp [hs])]
  obtain ⟨lc, hlc⟩ := Option.isSome_iff_exists.1 (List.getLast?_isSome.2 hbn)
  have hfl : (save_pdf_fname base n link).data.getLast? = some lc := by
    unfold save_pdf_fname
    rw [joinPath_getLast _ _ hbn (head?_ne_slash (basename_no_slash link))]
    exact hlc
  have hw : (fs.makedirs (save_pdf_save_dir base n)).writeFile (save_pdf_fname base n link)
      body = .ok { fs.makedirs (save_pdf_save_dir base n) with
        files := (save_pdf_fname base n link, body) ::
          (fs.makedirs (save_pdf_save_dir base n)).files } := by
    apply writeFile_ok
    · rw [hfl]
      intro hcontra
      exact basename_no_slash link lc (mem_of_getLast? hlc) (by injection hcontra)
    · intro hmem
      rcases (makedirs_mem_dirs _ _ _).1 hmem with he | hmem'
      · exact save_pdf_fname_ne_save_dir base n link he
      · exact hnd hmem'
  rw [hw, makedirs_files]

lemma save_pdf_fname_data_of_empty (base : String) (n : Nat) (link : String)
    (hbn : (basename link).data = []) :
    (save_pdf_fname base n link).data = (save_pdf_save_dir base n).data ++ ['/'] := by
  rw [save_pdf_fname_data, hbn]

lemma save_pdf_dirfail_eq {fs : FS} (h : fs.dirsClean) (n : Nat) (link base : String)
    (t : Nat) {s : Nat} (body : String) (hbn : (basename link).data = [])
    (hs : raisesForStatus s = false) :
    save_pdf fs n link base t (.ok s body) =
      .ok ⟨(save_pdf_fname base n link ++ ".failed.txt", msgGeneric link) :: fs.files,
        (fs.makedirs (save_pdf_save_dir base n)).dirs⟩ := by
  show (if raisesForStatus s = true then _ else _) = _
  rw [if_neg (by simp [hs])]
  have hsl : (save_pdf_fname base n link).data.getLast? = some '/' := by
    rw [save_pdf_fname_data_of_empty base n link hbn]
    exact getLast?_append_right _ _ (by simp)
  rw [writeFile_err_of_slash hsl]
  rw [write_generic_fail_msg_eq (dirsClean_makedirs h (save_dir_clean base n)) base n link]
  rw [makedirs_files, makedirs_idem]

/-- In every case, `save_pdf` succeeds and records exactly one new write
event; that event is either a marker file (a path ending in `'t'`) or the
downloaded document at `save_pdf_fname`. -/
lemma save_pdf_event {fs : FS} (h : fs.dirsClean) (n : Nat) (link base : String)
    (t : Nat) (resp : ReqResult) :
    ∃ p c, save_pdf fs n link base t resp =
        .ok ⟨(p, c) :: fs.files, (fs.makedirs (save_pdf_save_dir base n)).dirs⟩ ∧
      (p.data.getLast? = some 't' ∨ p = save_pdf_fname base n link) := by
  cases resp with
  | timeout =>
    exact ⟨save_pdf_fname base n link ++ ".timedout.txt", msgTimeout link,
      save_pdf_timeout_eq h n link base t,
      Or.inl (marker_getLast _ _ (by decide) (by decide))⟩
  | connError =>
    exact ⟨save_pdf_fname base n link ++ ".failed.txt", msgGeneric link,
      save_pdf_conn_eq h n link base t,
      Or.inl (marker_getLast _ _ (by decide) (by decide))⟩
  | ok s body =>
    by_cases hr : raisesForStatus s = true
    · have h4 : 400 ≤ s ∧ s < 600 := by
        unfold raisesForStatus at hr
        simp only [Bool.and_eq_true, decide_eq_true_eq] at hr
        exact hr
      exact ⟨save_pdf_fname base n link ++ ".404error.txt", msg404 link,
        save_pdf_http_eq h n link base t body h4.1 h4.2,
        Or.inl (marker_getLast _ _ (by decide) (by decide))⟩
    · have hs : raisesForStatus s = false := by
        rw [Bool.not_eq_true] at hr
        exact hr
      by_cases hbn : (basename link).data = []
      · exact ⟨save_pdf_fname base n link ++ ".failed.txt", msgGeneric link,
          save_pdf_dirfail_eq h n link base t body hbn hs,
          Or.inl (marker_getLast _ _ (by decide) (by decide))⟩
      · by_cases hnd : save_pdf_fname base n link ∈ fs.dirs
        · -- the open fails because the target is an existing directory
          refine ⟨save_pdf_fname base n link ++ ".failed.txt", msgGeneric link, ?_,
            Or.inl (marker_getLast _ _ (by decide) (by decide))⟩
          show (if raisesForStatus s = true then _ else _) = _
          rw [if_neg (by simp [hs])]
          have hw : (fs.makedirs (save_pdf_save_dir base n)).writeFile
              (save_pdf_fname base n link) body = .error () := by
            unfold FS.writeFile
            rw [if_pos]
            rw [Bool.or_eq_true]
            right
            rw [contains_iff_mem, makedirs_mem_dirs]
            exact Or.inr hnd
          rw [hw]
          rw [write_generic_fail_msg_eq (dirsClean_makedirs h (save_dir_clean base n))
            base n link]
          rw [makedirs_files, makedirs_idem]
        · exact ⟨_, _, save_pdf_success_eq h n link base t body hbn hnd hs, Or.inr rfl⟩

/-! ### Equations for `results_summary` and `save_link` -/

lemma isfile_makedirs (fs : FS) (p q : String) :
    (fs.makedirs p).isfile q = fs.isfile q := by
  unfold FS.isfile
  rw [makedirs_files]

lemma read_makedirs (fs : FS) (p q : String) :
    (fs.makedirs p).read q = fs.read q := by
  unfold FS.read
  rw [makedirs_files]

lemma read_cons_self (p c : String) (rest : List (String × String)) (ds : List String) :
    FS.read ⟨(p, c) :: rest, ds⟩ p = some c := by
  unfold FS.read
  simp [List.find?_cons]

lemma isfile_eq_true_of_read {fs : FS} {p s : String} (h : fs.read p = some s) :
    fs.isfile p = true := by
  unfold FS.read at h
  unfold FS.isfile
  rcases hf : fs.files.find? (fun e => e.1 == p) with - | e
  · rw [hf] at h
    simp at h
  · rw [hf]
    rfl

lemma summary_path_getLast (base : String) :
    (summary_path base).data.getLast? = some 'v' := by
  unfold summary_path
  rw [joinPath_getLast base _ (by decide) (by decide)]
  decide

lemma results_summary_first {fs : FS} (h : fs.dirsClean) {base : String}
    (hb : cleanDirName base) (n : Nat) (title link : String)
    (hnf : fs.isfile (summary_path base) = false) :
    results_summary fs n title link base =
      .ok ⟨(summary_path base, summaryHeader ++ summaryRow n title link) ::
            (summary_path base, summaryHeader) :: fs.files,
        (fs.makedirs base).dirs⟩ := by
  have h1 : (fs.makedirs base).dirsClean := dirsClean_makedirs h hb
  have hisf : (fs.makedirs base).isfile (summary_path base) = false := by
    rw [isfile_makedirs]
    exact hnf
  unfold results_summary
  dsimp only
  rw [if_neg (by simp [hisf])]
  rw [writeFile_clean h1 _ _ (summary_path_getLast base) (Or.inr rfl)]
  show FS.appendFile _ _ _ = _
  rw [@appendFile_clean ⟨(summary_path base, summaryHeader) :: (fs.makedirs base).files,
      (fs.makedirs base).dirs⟩ (fun d hd => h1 d hd) _ _ 'v' (summary_path_getLast base)
      (Or.inr rfl)]
  rw [read_cons_self, makedirs_files]
  rfl

lemma results_summary_next {fs : FS} (h : fs.dirsClean) {base : String}
    (hb : cleanDirName base) (n : Nat) (title link : String) {s : String}
    (hr : fs.read (summary_path base) = some s) :
    results_summary fs n title link base =
      .ok ⟨(summary_path base, s ++ summaryRow n title link) :: fs.files,
        (fs.makedirs base).dirs⟩ := by
  have h1 : (fs.makedirs base).dirsClean := dirsClean_makedirs h hb
  have hr1 : (fs.makedirs base).read (summary_path base) = some s := by
    rw [read_makedirs]
    exact hr
  have hisf : (fs.makedirs base).isfile (summary_path base) = true :=
    isfile_eq_true_of_read hr1
  unfold results_summary
  dsimp only
  rw [if_pos (by simp [hisf])]
  show FS.appendFile _ _ _ = _
  rw [appendFile_clean h1 _ _ (summary_path_getLast base) (Or.inr rfl)]
  rw [hr1, makedirs_files]
  rfl

lemma website_link_getLast (base : String) (n : Nat) :
    (joinPath (save_link_save_dir base n) "website_link.txt").data.getLast? = some 't' := by
  rw [joinPath_getLast _ _ (by decide) (by decide)]
  decide

lemma save_link_eq {fs : FS} (h : fs.dirsClean) (n : Nat) (link base : String) :
    save_link fs n link base =
      .ok ⟨(joinPath (save_link_save_dir base n) "website_link.txt", link) :: fs.files,
        (fs.makedirs (save_link_save_dir base n)).dirs⟩ := by
  have h1 : (fs.makedirs (save_link_save_dir base n)).dirsClean :=
    dirsClean_makedirs h (save_dir_clean base n)
  show FS.writeFile _ _ _ = _
  rw [writeFile_clean h1 _ _ (website_link_getLast base n) (Or.inl rfl)]
  rw [makedirs_files]

lemma save_link_err {fs : FS} (n : Nat) (link base : String)
    (hmem : joinPath (save_link_save_dir base n) "website_link.txt" ∈ fs.dirs) :
    save_link fs n link base = .error () := by
  show FS.writeFile _ _ _ = _
  unfold FS.writeFile
  rw [if_pos]
  rw [Bool.or_eq_true]
  right
  rw [contains_iff_mem, makedirs_mem_dirs]
  exact Or.inr hmem

/-! ### The per-result loop of `search_and_download` -/

/-- The session directory of `search_and_download` is a wall-clock
timestamp `YYYYmmdd_HHMMSS`; all we use is that it ends in a digit. -/
def goodBase (base : String) : Prop :=
  ∃ c, base.data.getLast? = some c ∧ c.isDigit = true

lemma goodBase_clean {base : String} (hg : goodBase base) : cleanDirName base := by
  obtain ⟨c, hc, hd⟩ := hg
  intro c' hc'
  rw [hc] at hc'
  obtain rfl : c = c' := by injection hc'
  exact ⟨(isDigit_ne_special hd).2.1, (isDigit_ne_special hd).2.2⟩

lemma joinPath_data_goodBase {base : String} (hg : goodBase base) (b : String)
    (hb2 : b.data.head? ≠ some '/') :
    (joinPath base b).data = base.data ++ '/' :: b.data := by
  obtain ⟨c, hc, hd⟩ := hg
  refine joinPath_data_of base b (ne_nil_of_getLast? hc) ?_ hb2
  rw [hc]
  intro h
  exact (isDigit_ne_special hd).1 (by injection h)

lemma sd_data_goodBase {base : String} (hg : goodBase base) (n : Nat) :
    (save_pdf_save_dir base n).data = base.data ++ '/' :: (zfill3 n).data :=
  joinPath_data_goodBase hg _
    (head?_ne_slash (fun c hc => (isDigit_ne_special (zfill3_digits n c hc)).1))

lemma summary_data_goodBase {base : String} (hg : goodBase base) :
    (summary_path base).data = base.data ++ '/' :: "results_summary.csv".data :=
  joinPath_data_goodBase hg _ (by decide)

lemma fname_ne_summary {base : String} (hg : goodBase base) (n : Nat) (link : String) :
    save_pdf_fname base n link ≠ summary_path base := by
  intro he
  have hd := congrArg String.data he
  rw [save_pdf_fname_data, sd_data_goodBase hg, summary_data_goodBase hg] at hd
  simp only [List.cons_append, List.append_assoc] at hd
  have h2 := List.append_cancel_left hd
  have h3 : (zfill3 n).data ++ '/' :: (basename link).data = "results_summary.csv".data := by
    injection h2
  have hmem : '/' ∈ "results_summary.csv".data := by
    rw [← h3]
    exact List.mem_append.2 (Or.inr (List.mem_cons_self _ _))
  exact absurd hmem (by decide)

lemma ne_of_getLast_tv {p q : String} (hp : p.data.getLast? = some 't')
    (hq : q.data.getLast? = some 'v') : p ≠ q := by
  intro he
  rw [he, hq] at hp
  exact absurd (by injection hp) (by decide)

lemma read_cons_ne {p q c : String} (rest : List (String × String)) (ds : List String)
    (h : p ≠ q) : FS.read ⟨(p, c) :: rest, ds⟩ q = FS.read ⟨rest, ds⟩ q := by
  unfold FS.read
  rw [List.find?_cons]
  have : (p == q) = false := by
    rw [beq_eq_false_iff_ne]
    exact h
  simp only [this]

/-- Exactly one artifact event is produced by the download / record
dispatch for one result, and its path is never the summary file. -/
lemma dispatch_event {base : String} {fs1 : FS} (h1 : fs1.dirsClean) (hg : goodBase base)
    (i : Nat) (r : SearchResult) (resp : ReqResult) :
    ∃ p c, (if r.do_download = true then save_pdf fs1 i r.primary_link base 60 resp
        else save_link fs1 i r.primary_link base) =
      .ok ⟨(p, c) :: fs1.files, (fs1.makedirs (save_pdf_save_dir base i)).dirs⟩ ∧
      p ≠ summary_path base := by
  cases hdd : r.do_download with
  | true =>
    obtain ⟨p, c, hp, hcase⟩ := save_pdf_event h1 i r.primary_link base 60 resp
    refine ⟨p, c, by rw [if_pos rfl]; exact hp, ?_⟩
    rcases hcase with ht | rfl
    · exact ne_of_getLast_tv ht (summary_path_getLast base)
    · exact fname_ne_summary hg i r.primary_link
  | false =>
    refine ⟨joinPath (save_link_save_dir base i) "website_link.txt", r.primary_link,
      by rw [if_neg (by simp)]; exact save_link_eq h1 i r.primary_link base, ?_⟩
    exact ne_of_getLast_tv (website_link_getLast base i) (summary_path_getLast base)

/-- Concatenation of a list of strings. -/
def strConcat : List String → String
  | [] => ""
  | x :: l => x ++ strConcat l

/-- The summary rows the loop is expected to append for the given
results, starting at the given index. -/
def summaryRows : Nat → List (SearchResult × ReqResult) → List String
  | _, [] => []
  | indx, (r, _) :: rest =>
    summaryRow indx r.title r.primary_link :: summaryRows (indx + 1) rest

lemma summaryRows_length (rs : List (SearchResult × ReqResult)) :
    ∀ i, (summaryRows i rs).length = rs.length := by
  induction rs with
  | nil => intro i; rfl
  | cons hd rest ih =>
    intro i
    obtain ⟨r, resp⟩ := hd
    simp only [summaryRows, List.length_cons, ih (i + 1)]

lemma string_append_empty (s : String) : s ++ "" = s := by
  apply String.ext
  rw [String.data_append]
  exact List.append_nil s.data

/-- One full iteration of the loop when the summary file already holds
`s`: the summary row is appended first, then exactly one artifact event
is stacked on top of it, never touching the summary file. -/
lemma processOne_step {base : String} {fs : FS} (h : fs.dirsClean) (hg : goodBase base)
    (i : Nat) (r : SearchResult) (resp : ReqResult) {s : String}
    (hr : fs.read (summary_path base) = some s) :
    ∃ fs2 p c, processOne base i r resp fs = .ok fs2 ∧
      fs2.files = (p, c) ::
        (summary_path base, s ++ summaryRow i r.title r.primary_link) :: fs.files ∧
      fs2.read (summary_path base) = some (s ++ summaryRow i r.title r.primary_link) ∧
      fs2.dirsClean := by
  have hrs := results_summary_next h (goodBase_clean hg) i r.title r.primary_link hr
  have h1 : FS.dirsClean ⟨(summary_path base, s ++ summaryRow i r.title r.primary_link) ::
      fs.files, (fs.makedirs base).dirs⟩ :=
    fun d hd => dirsClean_makedirs h (goodBase_clean hg) d hd
  obtain ⟨p, c, hp, hne⟩ := dispatch_event h1 hg i r resp
  refine ⟨⟨(p, c) :: (summary_path base, s ++ summaryRow i r.title r.primary_link) ::
      fs.files,
      (FS.makedirs ⟨(summary_path base, s ++ summaryRow i r.title r.primary_link) ::
        fs.files, (fs.makedirs base).dirs⟩ (save_pdf_save_dir base i)).dirs⟩,
    p, c, ?_, rfl, ?_, ?_⟩
  · show (match results_summary fs i r.title r.primary_link base with
      | .error e => Except.error e
      | .ok fs1 => if r.do_download = true then save_pdf fs1 i r.primary_link base 60 resp
          else save_link fs1 i r.primary_link base) = _
    rw [hrs]
    exact hp
  · rw [read_cons_ne _ _ hne]
    exact read_cons_self _ _ _ _
  · intro d hd
    exact dirsClean_makedirs h1 (save_dir_clean base i) d hd

/-- The first iteration, when no summary file exists yet: the header and
first row are written, then one artifact event. -/
lemma processOne_first {base : String} {fs : FS} (h : fs.dirsClean) (hg : goodBase base)
    (i : Nat) (r : SearchResult) (resp : ReqResult)
    (hnf : fs.isfile (summary_path base) = false) :
    ∃ fs2 p c, processOne base i r resp fs = .ok fs2 ∧
      fs2.files = (p, c) ::
        (summary_path base, summaryHeader ++ summaryRow i r.title r.primary_link) ::
        (summary_path base, summaryHeader) :: fs.files ∧
      fs2.read (summary_path base) =
        some (summaryHeader ++ summaryRow i r.title r.primary_link) ∧
      fs2.dirsClean := by
  have hrs := results_summary_first h (goodBase_clean hg) i r.title r.primary_link hnf
  have h1 : FS.dirsClean ⟨(summary_path base,
        summaryHeader ++ summaryRow i r.title r.primary_link) ::
        (summary_path base, summaryHeader) :: fs.files, (fs.makedirs base).dirs⟩ :=
    fun d hd => dirsClean_makedirs h (goodBase_clean hg) d hd
  obtain ⟨p, c, hp, hne⟩ := dispatch_event h1 hg i r resp
  refine ⟨⟨(p, c) ::
      (summary_path base, summaryHeader ++ summaryRow i r.title r.primary_link) ::
      (summary_path base, summaryHeader) :: fs.files,
      (FS.makedirs ⟨(summary_path base,
          summaryHeader ++ summaryRow i r.title r.primary_link) ::
        (summary_path base, summaryHeader) :: fs.files, (fs.makedirs base).dirs⟩
        (save_pdf_save_dir base i)).dirs⟩,
    p, c, ?_, rfl, ?_, ?_⟩
  · show (match results_summary fs i r.title r.primary_link base with
      | .error e => Except.error e
      | .ok fs1 => if r.do_download = true then save_pdf fs1 i r.primary_link base 60 resp
          else save_link fs1 i r.primary_link base) = _
    rw [hrs]
    exact hp
  · rw [read_cons_ne _ _ hne]
    exact read_cons_self _ _ _ _
  · intro d hd
    exact dirsClean_makedirs h1 (save_dir_clean base i) d hd

/-- The loop, run from a state whose summary file holds `s`, succeeds and
extends the summary file by exactly the expected rows. -/
lemma runResults_ok {base : String} (hg : goodBase base) :
    ∀ (rs : List (SearchResult × ReqResult)) (i : Nat) (fs : FS) (s : String),
      fs.dirsClean → fs.read (summary_path base) = some s →
      ∃ fs', runResults base i rs fs = .ok fs' ∧
        fs'.read (summary_path base) = some (s ++ strConcat (summaryRows i rs)) ∧
        fs'.dirsClean := by
  intro rs
  induction rs with
  | nil =>
    intro i fs s h hr
    refine ⟨fs, rfl, ?_, h⟩
    show fs.read _ = some (s ++ "")
    rw [string_append_empty]
    exact hr
  | cons hd rest ih =>
    intro i fs s h hr
    obtain ⟨r, resp⟩ := hd
    obtain ⟨fs2, p, c, hp, hfiles, hread, hclean⟩ := processOne_step h hg i r resp hr
    obtain ⟨fs', h1, h2, h3⟩ := ih (i + 1) fs2 _ hclean hread
    refine ⟨fs', ?_, ?_, h3⟩
    · show (match processOne base i r resp fs with
        | .error e => Except.error e
        | .ok fs1 => runResults base (i + 1) rest fs1) = _
      rw [hp]
      exact h1
    · rw [h2]
      show _ = some (s ++ (summaryRow i r.title r.primary_link ++ _))
      rw [← String.append_assoc]

/-! ### The claims -/

/-- C1: for every failed download attempt by `save_pdf`, exactly one marker
file is written, classified mutually exclusively in the source's priority
order: an HTTP error status (4xx/5xx) yields a `.404error.txt` file with a
fixed message plus the original link; a timeout yields a `.timedout.txt`
file with its message plus the link; any other error yields a `.failed.txt`
file with a generic message plus the link. -/
theorem spec_C1 (fs : FS) (n : Nat) (link base : String) (t : Nat)
    (h : fs.dirsClean) :
    (∀ s body, 400 ≤ s → s < 600 →
      save_pdf fs n link base t (.ok s body) =
        .ok ⟨(save_pdf_fname base n link ++ ".404error.txt",
            "recieved 404 error when trying to download\n" ++ link) :: fs.files,
          (fs.makedirs (save_pdf_save_dir base n)).dirs⟩) ∧
    (save_pdf fs n link base t .timeout =
      .ok ⟨(save_pdf_fname base n link ++ ".timedout.txt",
          "timed out when trying to download, please manually download using the link below\n"
            ++ link) :: fs.files,
        (fs.makedirs (save_pdf_save_dir base n)).dirs⟩) ∧
    (save_pdf fs n link base t .connError =
      .ok ⟨(save_pdf_fname base n link ++ ".failed.txt",
          "recieved an error when trying to download\n" ++ link) :: fs.files,
        (fs.makedirs (save_pdf_save_dir base n)).dirs⟩) :=
  ⟨fun s body h4 h6 => save_pdf_http_eq h n link base t body h4 h6,
   save_pdf_timeout_eq h n link base t,
   save_pdf_conn_eq h n link base t⟩

theorem spec_C1_witness :
    FS.dirsClean ⟨[], []⟩ ∧
    save_pdf (⟨[], []⟩ : FS) 0 "http://x/a.pdf" "run1" 60 .timeout =
      .ok ⟨[("run1/000/a.pdf.timedout.txt",
        "timed out when trying to download, please manually download using the link below\nhttp://x/a.pdf")],
        ["run1/000"]⟩ ∧
    save_pdf (⟨[], []⟩ : FS) 0 "http://x/a.pdf" "run1" 60 (.ok 404 "") =
      .ok ⟨[("run1/000/a.pdf.404error.txt",
        "recieved 404 error when trying to download\nhttp://x/a.pdf")],
        ["run1/000"]⟩ := by
  have hclean : FS.dirsClean ⟨[], []⟩ := fun d hd => absurd hd (List.not_mem_nil d)
  have h := spec_C1 (⟨[], []⟩ : FS) 0 "http://x/a.pdf" "run1" 60 hclean
  exact ⟨hclean, h.2.1, h.1 404 "" (by omega) (by omega)⟩

/-- C2: whatever the outcome of the download attempt (HTTP error status,
timeout, any other transport or processing error, or success), `save_pdf`
never propagates an error: it returns normally and records exactly one new
write event on top of the previous filesystem state. -/
theorem spec_C2 (fs : FS) (n : Nat) (link base : String) (t : Nat) (resp : ReqResult)
    (h : fs.dirsClean) :
    ∃ fs', save_pdf fs n link base t resp = .ok fs' ∧
      ∃ p c, fs'.files = (p, c) :: fs.files := by
  obtain ⟨p, c, hp, -⟩ := save_pdf_event h n link base t resp
  exact ⟨_, hp, p, c, rfl⟩

theorem spec_C2_witness :
    FS.dirsClean ⟨[], []⟩ ∧
    (∃ fs', save_pdf (⟨[], []⟩ : FS) 0 "http://x/a.pdf" "run1" 60 .connError = .ok fs' ∧
      ∃ p c, fs'.files = (p, c) :: (⟨[], []⟩ : FS).files) := by
  have hclean : FS.dirsClean ⟨[], []⟩ := fun d hd => absurd hd (List.not_mem_nil d)
  exact ⟨hclean, spec_C2 ⟨[], []⟩ 0 "http://x/a.pdf" "run1" 60 .connError hclean⟩

/-- C3: the claim says the HTTP GET issued by `save_pdf` is bounded by the
`timeout` argument (default 60).  The code passes the literal `60` to
`requests.get` (line 73) and never uses its `timeout` parameter, so a call
with `timeout=5` still issues a GET bounded by 60. -/
theorem spec_C3_bug :
    save_pdf_requests_timeout 5 = 60 ∧ save_pdf_requests_timeout 5 ≠ 5 ∧
      save_pdf_default_timeout = 60 :=
  ⟨rfl, by decide, rfl⟩

/-- C5: a 2xx response makes `save_pdf` write the body verbatim, in one
atomic event, to `<base_dir>/<index zero-padded to 3>/<final path segment
of the link>`, and the file then reads back as exactly the body,
overwriting any earlier content at that path. -/
theorem spec_C5 (fs : FS) (n : Nat) (link base : String) (t : Nat) (s : Nat)
    (body : String) (h : fs.dirsClean) (hbn : (basename link).data ≠ [])
    (hnd : save_pdf_fname base n link ∉ fs.dirs) (h2 : 200 ≤ s) (h3 : s < 300) :
    save_pdf fs n link base t (.ok s body) =
      .ok ⟨(save_pdf_fname base n link, body) :: fs.files,
        (fs.makedirs (save_pdf_save_dir base n)).dirs⟩ ∧
    FS.read ⟨(save_pdf_fname base n link, body) :: fs.files,
      (fs.makedirs (save_pdf_save_dir base n)).dirs⟩ (save_pdf_fname base n link) =
      some body := by
  have hs : raisesForStatus s = false := by
    rw [Bool.eq_false_iff]
    intro hcontra
    unfold raisesForStatus at hcontra
    simp only [Bool.and_eq_true, decide_eq_true_eq] at hcontra
    omega
  exact ⟨save_pdf_success_eq h n link base t body hbn hnd hs, read_cons_self _ _ _ _⟩

theorem spec_C5_witness :
    FS.dirsClean ⟨[], ["other"]⟩ ∧
    (basename "http://x/a.pdf").data ≠ [] ∧
    save_pdf_fname "run1" 0 "http://x/a.pdf" ∉ (⟨[], ["other"]⟩ : FS).dirs ∧
    save_pdf (⟨[], ["other"]⟩ : FS) 0 "http://x/a.pdf" "run1" 60 (.ok 200 "BODY") =
      .ok ⟨[("run1/000/a.pdf", "BODY")], ["run1/000", "other"]⟩ ∧
    FS.read ⟨[("run1/000/a.pdf", "BODY")], ["run1/000", "other"]⟩ "run1/000/a.pdf" =
      some "BODY" := by
  have hclean : FS.dirsClean ⟨[], ["other"]⟩ := by
    intro d hd c hc
    rcases List.mem_singleton.1 hd with rfl
    refine ⟨?_, ?_⟩ <;> (intro he; subst he; revert hc; decide)
  have hbn : (basename "http://x/a.pdf").data ≠ [] := by decide
  have hnd : save_pdf_fname "run1" 0 "http://x/a.pdf" ∉ (⟨[], ["other"]⟩ : FS).dirs := by
    decide
  have h := spec_C5 ⟨[], ["other"]⟩ 0 "http://x/a.pdf" "run1" 60 200 "BODY"
    hclean hbn hnd (by omega) (by omega)
  exact ⟨hclean, hbn, hnd, h.1, h.2⟩

/-- C6: for a result not to be downloaded, `save_link` writes exactly one
file, `website_link.txt`, into the result's index subdirectory, with the
link as its verbatim content, creating the subdirectory if needed; no
failure classification is performed and a write failure propagates as an
error. -/
theorem spec_C6 (fs : FS) (n : Nat) (link base : String) :
    (fs.dirsClean →
      save_link fs n link base =
        .ok ⟨(joinPath (save_link_save_dir base n) "website_link.txt", link) :: fs.files,
          (fs.makedirs (save_link_save_dir base n)).dirs⟩) ∧
    (joinPath (save_link_save_dir base n) "website_link.txt" ∈ fs.dirs →
      save_link fs n link base = .error ()) :=
  ⟨fun h => save_link_eq h n link base, fun hm => save_link_err n link base hm⟩

theorem spec_C6_witness :
    FS.dirsClean ⟨[], []⟩ ∧
    save_link (⟨[], []⟩ : FS) 0 "http://x/page" "run1" =
      .ok ⟨[("run1/000/website_link.txt", "http://x/page")], ["run1/000"]⟩ ∧
    "run1/000/website_link.txt" ∈ (⟨[], ["run1/000/website_link.txt"]⟩ : FS).dirs ∧
    save_link (⟨[], ["run1/000/website_link.txt"]⟩ : FS) 0 "http://x/page" "run1" =
      .error () := by
  have hclean : FS.dirsClean ⟨[], []⟩ := fun d hd => absurd hd (List.not_mem_nil d)
  have hmem : joinPath (save_link_save_dir "run1" 0) "website_link.txt" ∈
      (⟨[], ["run1/000/website_link.txt"]⟩ : FS).dirs := by decide
  exact ⟨hclean, (spec_C6 ⟨[], []⟩ 0 "http://x/page" "run1").1 hclean, hmem,
    (spec_C6 ⟨[], ["run1/000/website_link.txt"]⟩ 0 "http://x/page" "run1").2 hmem⟩

/-- C7: `get_webpage` appends `&num=<results>` to the query URL; a request
for more than 100 results emits the non-fatal warning and is clamped to
100, while a request of at most 100 passes through unchanged with no
warning. -/
theorem spec_C7 (url : String) (results : Int) :
    (100 < results → get_webpage_query url results = (url ++ "&num=" ++ "100", true)) ∧
    (results ≤ 100 →
      get_webpage_query url results = (url ++ "&num=" ++ toString results, false)) := by
  constructor
  · intro h
    unfold get_webpage_query
    rw [if_pos h]
    rfl
  · intro h
    unfold get_webpage_query
    rw [if_neg (by omega)]

theorem spec_C7_witness :
    (100 : Int) < 150 ∧ (50 : Int) ≤ 100 ∧
    get_webpage_query "u" 150 = ("u&num=100", true) ∧
    get_webpage_query "u" 50 = ("u&num=50", false) :=
  ⟨by norm_num, by norm_num,
   (spec_C7 "u" 150).1 (by norm_num), (spec_C7 "u" 50).2 (by norm_num)⟩

/-- C8: each `results_summary` call appends exactly the row
`"<index zero-padded to 3>, <title>, <link>\n"` with no quoting or
escaping, and on the first write for a session it first creates the file
with the fixed header row `"search number, title, link"`. -/
theorem spec_C8 (fs : FS) (n : Nat) (title link base : String)
    (h : fs.dirsClean) (hb : cleanDirName base) :
    (fs.isfile (summary_path base) = false →
      results_summary fs n title link base =
        .ok ⟨(summary_path base, "search number, title, link\n" ++
              (zfill3 n ++ ", " ++ title ++ ", " ++ link ++ "\n")) ::
            (summary_path base, "search number, title, link\n") :: fs.files,
          (fs.makedirs base).dirs⟩) ∧
    (∀ s, fs.read (summary_path base) = some s →
      results_summary fs n title link base =
        .ok ⟨(summary_path base,
            s ++ (zfill3 n ++ ", " ++ title ++ ", " ++ link ++ "\n")) :: fs.files,
          (fs.makedirs base).dirs⟩) :=
  ⟨fun hnf => results_summary_first h hb n title link hnf,
   fun s hr => results_summary_next h hb n title link hr⟩

theorem spec_C8_witness :
    FS.dirsClean ⟨[], []⟩ ∧
    FS.isfile ⟨[], []⟩ (summary_path "run1") = false ∧
    results_summary (⟨[], []⟩ : FS) 7 "A Title" "http://x/a.pdf" "run1" =
      .ok ⟨[("run1/results_summary.csv",
          "search number, title, link\n007, A Title, http://x/a.pdf\n"),
        ("run1/results_summary.csv", "search number, title, link\n")], ["run1"]⟩ := by
  have hclean : FS.dirsClean ⟨[], []⟩ := fun d hd => absurd hd (List.not_mem_nil d)
  have hb : cleanDirName "run1" := goodBase_clean ⟨'1', rfl, by decide⟩
  exact ⟨hclean, rfl,
    (spec_C8 ⟨[], []⟩ 7 "A Title" "http://x/a.pdf" "run1" hclean hb).1 rfl⟩

/-- C4 counterexample: for the empty result sequence (N = 0) the loop of
`search_and_download` terminates without creating the summary file at all,
so the summary file does not "end up with exactly N rows plus the header"
(there is no header row). -/
theorem spec_C4_counterexample :
    runResults "run1" 0 [] (⟨[], []⟩ : FS) = .ok (⟨[], []⟩ : FS) ∧
      FS.read ⟨[], []⟩ (summary_path "run1") = none :=
  ⟨rfl, rfl⟩

/-- C4 (amended): for every nonempty result sequence of length N processed
by the loop of `search_and_download`, the summary record of each result is
appended before its download attempt begins (the artifact event sits on
top of that result's summary append in the log), and the summary file ends
up with exactly N rows after the header, regardless of whether any
individual download succeeds or fails; for the empty sequence the
filesystem is untouched and no summary file is created. -/
theorem spec_C4 (base : String) (rs : List (SearchResult × ReqResult)) (fs : FS)
    (h : fs.dirsClean) (hg : goodBase base)
    (hnf : fs.isfile (summary_path base) = false) :
    (∃ fs', runResults base 0 rs fs = .ok fs' ∧
      (rs = [] → fs' = fs) ∧
      (rs ≠ [] → fs'.read (summary_path base) =
        some (summaryHeader ++ strConcat (summaryRows 0 rs)))) ∧
    (summaryRows 0 rs).length = rs.length ∧
    (∀ (i : Nat) (r : SearchResult) (resp : ReqResult) (fs0 : FS) (s : String),
      fs0.dirsClean → fs0.read (summary_path base) = some s →
      ∃ fs1 p c fs2, results_summary fs0 i r.title r.primary_link base = .ok fs1 ∧
        processOne base i r resp fs0 = .ok fs2 ∧ fs2.files = (p, c) :: fs1.files) := by
  refine ⟨?_, summaryRows_length rs 0, ?_⟩
  · cases rs with
    | nil => exact ⟨fs, rfl, fun _ => rfl, fun hne => absurd rfl hne⟩
    | cons hd rest =>
      obtain ⟨r, resp⟩ := hd
      obtain ⟨fs2, p, c, hp, hfiles, hread, hclean⟩ := processOne_first h hg 0 r resp hnf
      obtain ⟨fs', h1, h2, h3⟩ := runResults_ok hg rest 1 fs2 _ hclean hread
      refine ⟨fs', ?_, ⟨fun he => by simp at he, fun _ => ?_⟩⟩
      · show (match processOne base 0 r resp fs with
          | .error e => Except.error e
          | .ok fs1 => runResults base 1 rest fs1) = _
        rw [hp]
        exact h1
      · rw [h2]
        show _ = some (summaryHeader ++
          (summaryRow 0 r.title r.primary_link ++ strConcat (summaryRows 1 rest)))
        rw [← String.append_assoc]
  · intro i r resp fs0 s h0 hr0
    obtain ⟨fs2, p, c, hp, hfiles, -, -⟩ := processOne_step h0 hg i r resp hr0
    exact ⟨⟨(summary_path base, s ++ summaryRow i r.title r.primary_link) :: fs0.files,
        (fs0.makedirs base).dirs⟩, p, c, fs2,
      results_summary_next h0 (goodBase_clean hg) i r.title r.primary_link hr0,
      hp, hfiles⟩

theorem spec_C4_witness :
    FS.dirsClean ⟨[], []⟩ ∧ goodBase "run1" ∧
    FS.isfile ⟨[], []⟩ (summary_path "run1") = false ∧
    ((∃ fs', runResults "run1" 0
        [(⟨"T", "http://x/a.pdf", true⟩, .ok 200 "B"),
         (⟨"U", "http://x/p", false⟩, .timeout)] (⟨[], []⟩ : FS) = .ok fs' ∧
      ([(((⟨"T", "http://x/a.pdf", true⟩ : SearchResult), ReqResult.ok 200 "B")),
        (⟨"U", "http://x/p", false⟩, ReqResult.timeout)] = [] → fs' = ⟨[], []⟩) ∧
      ([(((⟨"T", "http://x/a.pdf", true⟩ : SearchResult), ReqResult.ok 200 "B")),
        (⟨"U", "http://x/p", false⟩, ReqResult.timeout)] ≠ [] →
        fs'.read (summary_path "run1") =
          some (summaryHeader ++ strConcat (summaryRows 0
            [(⟨"T", "http://x/a.pdf", true⟩, .ok 200 "B"),
             (⟨"U", "http://x/p", false⟩, .timeout)])))) ∧
    (summaryRows 0 [(((⟨"T", "http://x/a.pdf", true⟩ : SearchResult), ReqResult.ok 200 "B")),
        (⟨"U", "http://x/p", false⟩, ReqResult.timeout)]).length =
      ([(((⟨"T", "http://x/a.pdf", true⟩ : SearchResult), ReqResult.ok 200 "B")),
        (⟨"U", "http://x/p", false⟩, ReqResult.timeout)]).length ∧
    (∀ (i : Nat) (r : SearchResult) (resp : ReqResult) (fs0 : FS) (s : String),
      fs0.dirsClean → fs0.read (summary_path "run1") = some s →
      ∃ fs1 p c fs2, results_summary fs0 i r.title r.primary_link "run1" = .ok fs1 ∧
        processOne "run1" i r resp fs0 = .ok fs2 ∧ fs2.files = (p, c) :: fs1.files)) := by
  have hclean : FS.dirsClean ⟨[], []⟩ := fun d hd => absurd hd (List.not_mem_nil d)
  have hg : goodBase "run1" := ⟨'1', rfl, by decide⟩
  exact ⟨hclean, hg, rfl,
    spec_C4 "run1" [(⟨"T", "http://x/a.pdf", true⟩, .ok 200 "B"),
      (⟨"U", "http://x/p", false⟩, .timeout)] ⟨[], []⟩ hclean hg rfl⟩

/-- C9 counterexample: for the link `"http://x/d/"` (empty final path
segment) with a 2xx response, the generic-failure marker is NOT written as
`000.failed.txt` directly in the base directory; the only file written is
`out9/000/.failed.txt`, i.e. a file named `.failed.txt` inside the index
subdirectory. -/
theorem spec_C9_counterexample :
    save_pdf (⟨[], []⟩ : FS) 0 "http://x/d/" "out9" 60 (.ok 200 "B") =
      .ok ⟨[("out9/000/.failed.txt",
        "recieved an error when trying to download\nhttp://x/d/")], ["out9/000"]⟩ ∧
    FS.read ⟨[("out9/000/.failed.txt",
        "recieved an error when trying to download\nhttp://x/d/")], ["out9/000"]⟩
      "out9/000.failed.txt" = none ∧
    "out9/000/.failed.txt" ≠ "out9/000.failed.txt" :=
  ⟨rfl, rfl, by decide⟩

/-- C9 (amended): for a link whose final path segment is empty (a URL
ending in `/`), `save_pdf` with a 2xx response writes no document: `fname`
is the index subdirectory path with a trailing separator, opening it as a
file fails, and the generic handler writes a marker at `fname` +
`".failed.txt"` — a file named `.failed.txt` inside the index
subdirectory, not a `<index>.failed.txt` file in `base_dir`. -/
theorem spec_C9 (fs : FS) (n : Nat) (link base : String) (t : Nat) (s : Nat)
    (body : String) (h : fs.dirsClean) (hbn : basename link = "")
    (h2 : 200 ≤ s) (h3 : s < 300) :
    save_pdf fs n link base t (.ok s body) =
      .ok ⟨(save_pdf_fname base n link ++ ".failed.txt",
          "recieved an error when trying to download\n" ++ link) :: fs.files,
        (fs.makedirs (save_pdf_save_dir base n)).dirs⟩ ∧
    (save_pdf_fname base n link).data = (save_pdf_save_dir base n).data ++ ['/'] := by
  have hbn' : (basename link).data = [] := by rw [hbn]
  have hs : raisesForStatus s = false := by
    rw [Bool.eq_false_iff]
    intro hcontra
    unfold raisesForStatus at hcontra
    simp only [Bool.and_eq_true, decide_eq_true_eq] at hcontra
    omega
  exact ⟨save_pdf_dirfail_eq h n link base t body hbn' hs,
    save_pdf_fname_data_of_empty base n link hbn'⟩

theorem spec_C9_witness :
    FS.dirsClean ⟨[], []⟩ ∧ basename "http://x/d/" = "" ∧
    save_pdf (⟨[], []⟩ : FS) 1 "http://x/d/" "run1" 60 (.ok 204 "B") =
      .ok ⟨[("run1/001/.failed.txt",
        "recieved an error when trying to download\nhttp://x/d/")], ["run1/001"]⟩ ∧
    (save_pdf_fname "run1" 1 "http://x/d/").data =
      (save_pdf_save_dir "run1" 1).data ++ ['/'] := by
  have hclean : FS.dirsClean ⟨[], []⟩ := fun d hd => absurd hd (List.not_mem_nil d)
  have h := spec_C9 ⟨[], []⟩ 1 "http://x/d/" "run1" 60 204 "B" hclean rfl
    (by omega) (by omega)
  exact ⟨hclean, rfl, h.1, h.2⟩

/-- C10: `results_summary`, `save_pdf` and `save_link` all derive the
index string with the same expression `str(search_num).zfill(3)`: the
decimal representation left-padded with `'0'` to a minimum width of 3
(indices of 1000 and above keep their full unpadded decimal form), so the
summary row's index field and the per-result subdirectory name always
agree exactly. -/
theorem spec_C10 (n : Nat) (title link base : String) :
    save_pdf_save_dir base n = save_link_save_dir base n ∧
    save_pdf_save_dir base n = joinPath base (zfill3 n) ∧
    summaryRow n title link = zfill3 n ++ ", " ++ title ++ ", " ++ link ++ "\n" ∧
    (zfill3 n).data = List.replicate (3 - (Nat.repr n).length) '0' ++ (Nat.repr n).data ∧
    (zfill3 n).length = max 3 (Nat.repr n).length ∧
    (1000 ≤ n → zfill3 n = Nat.repr n) :=
  ⟨rfl, rfl, rfl, zfill3_data n, zfill3_length n, fun hn => zfill3_of_ge_1000 hn⟩

theorem spec_C10_witness :
    1000 ≤ 1234 ∧
    save_pdf_save_dir "run1" 1234 = save_link_save_dir "run1" 1234 ∧
    zfill3 1234 = Nat.repr 1234 ∧
    (zfill3 7).length = max 3 (Nat.repr 7).length := by
  have h7 := spec_C10 7 "T" "L" "run1"
  have h := spec_C10 1234 "T" "L" "run1"
  exact ⟨by omega, h.1, h.2.2.2.2.2 (by omega), h7.2.2.2.2.1⟩

end GreyLitSearch
